import Mathlib

/-!
Verification of the yokadi `SyncManager` synchronization engine
(`yokadi/sync/syncmanager.py`).

The engine orchestrates an external VCS implementation and an external
progress-reporting interface.  We embed the engine's methods as Lean
functions over explicit oracle environments (the answers the external
collaborators would give) producing the observable trace of calls the
engine makes, and — for the checkpoint-tag lifecycle — over an explicit
VCS tag-state.
-/

set_option maxHeartbeats 1000000

/-- The checkpoint tag name, `BEFORE_MERGE_TAG = "before-merge"` in the source. -/
def BEFORE_MERGE_TAG : String := "before-merge"

/-- Observable calls the engine makes on its collaborators: progress/error
reports on the pull UI, and VCS / filesystem operations.  Mirrors the calls
performed by `SyncManager` in the source. -/
inductive Event where
  | progress (msg : String)
  | error (msg : String)
  | fetch
  | push
  | merge
  | importSince (tag : String)
  | createTag (tag : String)
  | deleteTag (tag : String)
  | commitAll (msg : String)
  | makedirs (path : String)
  | vcsInit
  | createVersionFile (path : String)
  | mkdir (path : String)
deriving DecidableEq, Repr

/-- The upgrade-needed error message built by `_checkDumpVersion` when the
remote dump version exceeds the local supported version (source lines
196-198, with the format fields substituted). -/
def upgradeNeededMsg (remote localVersion : Nat) : String :=
  "Remote dump version is " ++ Nat.repr remote ++ " but Yokadi expects version " ++
    Nat.repr localVersion ++ ".\n" ++
    "You need to update your version of Yokadi to be able to synchronize your database."

/-- The downgrade-conflict error message built by `_checkDumpVersion` when the
remote dump version is older and the local clone is not up to date (source
lines 203-207). -/
def downgradeConflictMsg (remote localVersion : Nat) : String :=
  "Remote dump version is " ++ Nat.repr remote ++ " but Yokadi expects version " ++
    Nat.repr localVersion ++ ".\n" ++
    "The remote dump has changes at version " ++ Nat.repr remote ++
    " which have not been imported in your local Yokadi." ++
    " Your local Yokadi cannot import changes from this remote dump version. You need to update the" ++
    " version of Yokadi which made these changes and sync them again."

/-- `SyncManager._checkDumpVersion` (source lines 193-212).  `remote` is
`getRemoteDumpVersion(vcsImpl)`, `localVersion` is the engine's supported
`VERSION`, `upToDate` is the oracle answer of `vcsImpl.isUpToDate()` (only
consulted when `remote < localVersion`, as in the source's short-circuit).
Returns the boolean result together with the `reportError` calls made. -/
def checkDumpVersion (remote localVersion : Nat) (upToDate : Bool) : Bool × List Event :=
  if localVersion < remote then
    (false, [.error (upgradeNeededMsg remote localVersion)])
  else if remote < localVersion then
    if upToDate then (true, [])
    else (false, [.error (downgradeConflictMsg remote localVersion)])
  else (true, [])

/-- Oracle environment for one call to `pull`: the answers of
`vcsImpl.isWorkTreeClean()`, `getRemoteDumpVersion(vcsImpl)`, the engine's
supported `VERSION`, `vcsImpl.isUpToDate()` and `hasChangesToImport()`. -/
structure PullEnv where
  workTreeClean : Bool
  remoteDumpVersion : Nat
  localVersion : Nat
  upToDate : Bool
  hasChangesToImport : Bool
deriving DecidableEq, Repr

/-- `SyncManager.pull` (source lines 89-107) as a trace function.  `none`
models the assertion failure on a dirty work tree; otherwise the result is
the returned boolean together with the trace of collaborator calls: report
"Pulling remote changes", fetch, then the version gate; on gate failure
return `False` right away; on success run the merge operation (create the
checkpoint tag, merge, import-or-report, delete the tag) and return `True`. -/
def pull (env : PullEnv) : Option (Bool × List Event) :=
  if !env.workTreeClean then none
  else
    let pre : List Event := [.progress "Pulling remote changes", .fetch]
    match checkDumpVersion env.remoteDumpVersion env.localVersion env.upToDate with
    | (false, errs) => some (false, pre ++ errs)
    | (true, errs) =>
      let mergeEvs : List Event :=
        [.createTag BEFORE_MERGE_TAG, .merge] ++
          (if env.hasChangesToImport then
            [.progress "Importing changes", .importSince BEFORE_MERGE_TAG]
          else
            [.progress "No remote changes"]) ++
          [.deleteTag BEFORE_MERGE_TAG]
      some (true, pre ++ errs ++ mergeEvs)

/-- C1: The version-compatibility gate of `pull()`: with remote dump version R
and supported version L, R > L fails with the upgrade-needed error and pull
returns false; R < L with the local clone not up to date fails with the
downgrade-conflict error and pull returns false; R == L, or R < L with the
local clone up to date, passes the gate and pull proceeds (the merge runs and
pull returns true). -/
theorem checkDumpVersion_gate (env : PullEnv) (hclean : env.workTreeClean = true) :
    (env.localVersion < env.remoteDumpVersion →
      checkDumpVersion env.remoteDumpVersion env.localVersion env.upToDate =
        (false, [.error (upgradeNeededMsg env.remoteDumpVersion env.localVersion)]) ∧
      pull env = some (false, [.progress "Pulling remote changes", .fetch,
        .error (upgradeNeededMsg env.remoteDumpVersion env.localVersion)])) ∧
    (env.remoteDumpVersion < env.localVersion → env.upToDate = false →
      checkDumpVersion env.remoteDumpVersion env.localVersion env.upToDate =
        (false, [.error (downgradeConflictMsg env.remoteDumpVersion env.localVersion)]) ∧
      pull env = some (false, [.progress "Pulling remote changes", .fetch,
        .error (downgradeConflictMsg env.remoteDumpVersion env.localVersion)])) ∧
    (env.remoteDumpVersion = env.localVersion ∨
        (env.remoteDumpVersion < env.localVersion ∧ env.upToDate = true) →
      checkDumpVersion env.remoteDumpVersion env.localVersion env.upToDate = (true, []) ∧
      ∃ evs, pull env = some (true, evs) ∧ Event.merge ∈ evs) := by
  refine ⟨?_, ?_, ?_⟩
  · intro hgt
    have h1 : checkDumpVersion env.remoteDumpVersion env.localVersion env.upToDate =
        (false, [.error (upgradeNeededMsg env.remoteDumpVersion env.localVersion)]) := by
      simp [checkDumpVersion, hgt]
    refine ⟨h1, ?_⟩
    simp [pull, hclean, h1]
  · intro hlt hnup
    have h1 : checkDumpVersion env.remoteDumpVersion env.localVersion env.upToDate =
        (false, [.error (downgradeConflictMsg env.remoteDumpVersion env.localVersion)]) := by
      have : ¬ env.localVersion < env.remoteDumpVersion := by omega
      simp [checkDumpVersion, this, hlt, hnup]
    refine ⟨h1, ?_⟩
    simp [pull, hclean, h1]
  · intro hok
    have h1 : checkDumpVersion env.remoteDumpVersion env.localVersion env.upToDate =
        (true, []) := by
      rcases hok with heq | ⟨hlt, hup⟩
      · simp [checkDumpVersion, heq]
      · have : ¬ env.localVersion < env.remoteDumpVersion := by omega
        simp [checkDumpVersion, this, hlt, hup]
    refine ⟨h1, ?_⟩
    refine ⟨[.progress "Pulling remote changes", .fetch] ++
      ([.createTag BEFORE_MERGE_TAG, .merge] ++
        (if env.hasChangesToImport then
          [.progress "Importing changes", .importSince BEFORE_MERGE_TAG]
        else
          [.progress "No remote changes"]) ++
        [.deleteTag BEFORE_MERGE_TAG]), ?_, ?_⟩
    · simp [pull, hclean, h1]
    · by_cases h : env.hasChangesToImport <;> simp [h]

/-- Witness for C1 at concrete inputs: remote version 3 against local version
2 fails with the upgrade message, and remote 1 against local 2 with the local
clone up to date passes the gate. -/
theorem checkDumpVersion_gate_witness :
    (checkDumpVersion 3 2 true = (false, [.error (upgradeNeededMsg 3 2)]) ∧
      pull ⟨true, 3, 2, true, false⟩ = some (false, [.progress "Pulling remote changes", .fetch,
        .error (upgradeNeededMsg 3 2)])) ∧
    (checkDumpVersion 1 2 true = (true, []) ∧
      ∃ evs, pull ⟨true, 1, 2, true, false⟩ = some (true, evs) ∧ Event.merge ∈ evs) :=
  ⟨(checkDumpVersion_gate ⟨true, 3, 2, true, false⟩ rfl).1 (by decide),
   (checkDumpVersion_gate ⟨true, 1, 2, true, false⟩ rfl).2.2 (Or.inr ⟨by decide, rfl⟩)⟩

/-- Outcome of one `vcsImpl.push()` attempt: success, a `NotFastForwardError`,
or another `VcsImplError` carrying its message. -/
inductive PushOutcome where
  | ok
  | notFastForward
  | vcsError (msg : String)
deriving DecidableEq, Repr

/-- Oracle environment for one iteration of the `sync` retry loop: the
environment `pull` runs in, the answer of `hasChangesToPush()`, and the
outcome of the push attempt. -/
structure SyncIter where
  pullEnv : PullEnv
  hasChangesToPush : Bool
  pushOutcome : PushOutcome
deriving DecidableEq, Repr

/-- The `while True` loop of `SyncManager.sync` (source lines 66-80), driven
by a script of per-iteration oracle answers.  `none` means either an
assertion failure inside `pull` or that the script ran out while the loop
would continue.  Each iteration: run `pull` (return false on its failure),
stop with success if there is nothing to push, otherwise report and attempt
the push; `notFastForward` re-enters the loop after a progress report, any
other VCS error reports and returns false. -/
def syncLoop : List SyncIter → Option (Bool × List Event)
  | [] => none
  | it :: rest =>
    match pull it.pullEnv with
    | none => none
    | some (false, evs) => some (false, evs)
    | some (true, evs) =>
      if !it.hasChangesToPush then some (true, evs)
      else
        let evs := evs ++ [.progress "Pushing local changes"]
        match it.pushOutcome with
        | .ok => some (true, evs ++ [.push])
        | .notFastForward =>
          match syncLoop rest with
          | none => none
          | some (b, evs2) =>
            some (b, evs ++ [.push, .progress "Remote has other changes, need to pull again"] ++ evs2)
        | .vcsError msg => some (false, evs ++ [.push, .error ("Failed to push: " ++ msg)])

/-- `SyncManager.sync` (source lines 61-80): commit local changes first when
the work tree is dirty, then run the retry loop. -/
def sync (workTreeCleanAtStart : Bool) (iters : List SyncIter) : Option (Bool × List Event) :=
  let pre : List Event :=
    if workTreeCleanAtStart then []
    else [.progress "Committing local changes", .commitAll "s_sync"]
  (syncLoop iters).map (fun p => (p.1, pre ++ p.2))

/-- C2: in every iteration of the `sync` retry loop, after a successful pull:
if there is nothing to push, sync returns true; a push failing with a
not-fast-forward error reports progress and re-enters the loop, and the next
iteration consults `pull` first — its trace is a prefix of the continuation,
so no retried push happens before a fresh pull; a push failing with any other
VCS error reports the error and returns false without consuming any further
iteration. -/
theorem syncLoop_push_handling (it : SyncIter) (rest : List SyncIter) (pevs : List Event)
    (hp : pull it.pullEnv = some (true, pevs)) :
    (it.hasChangesToPush = false → syncLoop (it :: rest) = some (true, pevs)) ∧
    (it.hasChangesToPush = true → ∀ m, it.pushOutcome = .vcsError m →
      syncLoop (it :: rest) = some (false, pevs ++ [.progress "Pushing local changes", .push,
        .error ("Failed to push: " ++ m)])) ∧
    (it.hasChangesToPush = true → it.pushOutcome = .notFastForward →
      syncLoop (it :: rest) =
        match syncLoop rest with
        | none => none
        | some (b, evs2) =>
          some (b, (pevs ++ [.progress "Pushing local changes"]) ++
            [.push, .progress "Remote has other changes, need to pull again"] ++ evs2)) ∧
    (∀ it2 rest2 b evs2, rest = it2 :: rest2 → syncLoop rest = some (b, evs2) →
      ∃ ok pevs2, pull it2.pullEnv = some (ok, pevs2) ∧ pevs2 <+: evs2) := by
  refine ⟨?_, ?_, ?_, ?_⟩
  · intro hnp
    simp [syncLoop, hp, hnp]
  · intro hcp m hout
    simp [syncLoop, hp, hcp, hout]
  · intro hcp hout
    simp only [syncLoop, hp, hcp, hout, Bool.not_true, Bool.false_eq_true, if_false]
  · intro it2 rest2 b evs2 hrest hloop
    subst hrest
    rw [syncLoop] at hloop
    cases hpull2 : pull it2.pullEnv with
    | none => rw [hpull2] at hloop; exact absurd hloop (by simp)
    | some p =>
      obtain ⟨ok2, pevs2⟩ := p
      rw [hpull2] at hloop
      refine ⟨ok2, pevs2, rfl, ?_⟩
      cases ok2 with
      | false =>
        simp only [Option.some.injEq, Prod.mk.injEq] at hloop
        rw [← hloop.2]
      | true =>
        by_cases hcp2 : it2.hasChangesToPush
        · simp only [hcp2, Bool.not_true, Bool.false_eq_true, if_false] at hloop
          cases hout2 : it2.pushOutcome with
          | ok =>
            rw [hout2] at hloop
            simp only [Option.some.injEq, Prod.mk.injEq] at hloop
            rw [← hloop.2]
            simp [List.append_assoc]
          | notFastForward =>
            rw [hout2] at hloop
            cases hrec : syncLoop rest2 with
            | none => rw [hrec] at hloop; exact absurd hloop (by simp)
            | some q =>
              rw [hrec] at hloop
              obtain ⟨b2, evs3⟩ := q
              simp only [Option.some.injEq, Prod.mk.injEq] at hloop
              rw [← hloop.2]
              simp [List.append_assoc]
          | vcsError m =>
            rw [hout2] at hloop
            simp only [Option.some.injEq, Prod.mk.injEq] at hloop
            rw [← hloop.2]
            simp [List.append_assoc]
        · simp only [eq_false_of_ne_true hcp2, Bool.not_false, if_true,
            Option.some.injEq, Prod.mk.injEq] at hloop
          rw [← hloop.2]

/-- Witness for C2 at concrete inputs: an iteration whose push fails with a
generic VCS error makes the loop return false with the failure report, and an
iteration with nothing to push makes it return true. -/
theorem syncLoop_push_handling_witness :
    (syncLoop [⟨⟨true, 2, 2, true, false⟩, true, .vcsError "boom"⟩] =
      some (false, [.progress "Pulling remote changes", .fetch,
        .createTag BEFORE_MERGE_TAG, .merge, .progress "No remote changes",
        .deleteTag BEFORE_MERGE_TAG, .progress "Pushing local changes", .push,
        .error "Failed to push: boom"])) ∧
    (syncLoop [⟨⟨true, 2, 2, true, false⟩, false, .ok⟩] =
      some (true, [.progress "Pulling remote changes", .fetch,
        .createTag BEFORE_MERGE_TAG, .merge, .progress "No remote changes",
        .deleteTag BEFORE_MERGE_TAG])) := by
  constructor
  · have h := (syncLoop_push_handling ⟨⟨true, 2, 2, true, false⟩, true, .vcsError "boom"⟩ []
      [.progress "Pulling remote changes", .fetch, .createTag BEFORE_MERGE_TAG, .merge,
        .progress "No remote changes", .deleteTag BEFORE_MERGE_TAG] rfl).2.1 rfl "boom" rfl
    simpa using h
  · have h := (syncLoop_push_handling ⟨⟨true, 2, 2, true, false⟩, false, .ok⟩ []
      [.progress "Pulling remote changes", .fetch, .createTag BEFORE_MERGE_TAG, .merge,
        .progress "No remote changes", .deleteTag BEFORE_MERGE_TAG] rfl).1 rfl
    simpa using h

/-- Modelled from the spec: the VCS interface (spec section 6) is external to
the repository.  We model the state the engine's tag operations observe: the
set of tags, each recording the history/working-tree snapshot it labels, and
the current snapshot `head`.  `createTag` labels the current snapshot,
`deleteTag` removes the tag, `hasTag` queries its presence, `resetTo`
restores the snapshot a tag labels. -/
structure VcsState where
  tags : List (String × Nat)
  head : Nat
deriving DecidableEq, Repr

/-- `vcsImpl.createTag(name)`: label the current snapshot with the tag. -/
def VcsState.createTag (s : VcsState) (tag : String) : VcsState :=
  { s with tags := (tag, s.head) :: s.tags }

/-- `vcsImpl.deleteTag(name)`: remove the tag. -/
def VcsState.deleteTag (s : VcsState) (tag : String) : VcsState :=
  { s with tags := s.tags.filter (fun p => p.1 ≠ tag) }

/-- `vcsImpl.hasTag(name)`: whether the tag exists. -/
def VcsState.hasTag (s : VcsState) (tag : String) : Bool :=
  s.tags.any (fun p => p.1 == tag)

/-- `vcsImpl.resetTo(name)`: restore the snapshot the tag labels (identity
when the tag does not exist). -/
def VcsState.resetTo (s : VcsState) (tag : String) : VcsState :=
  match s.tags.lookup tag with
  | some h => { s with head := h }
  | none => s

/-- Outcome of running a merge-operation body on the VCS state: normal
completion, or an exception (carrying its message) raised with the
collaborator state as the body left it. -/
inductive MergeOutcome where
  | ok (s : VcsState)
  | raised (e : String) (s : VcsState)
deriving DecidableEq, Repr

/-- The VCS state an outcome leaves behind. -/
def MergeOutcome.state : MergeOutcome → VcsState
  | .ok s => s
  | .raised _ s => s

/-- `SyncManager._mergeOperation` (source lines 38-42): create the
checkpoint tag, run the body, and delete the tag — but only when the body
completes normally; an exception propagates with the tag still present. -/
def mergeOperation (body : VcsState → MergeOutcome) (s : VcsState) : MergeOutcome :=
  match body (s.createTag BEFORE_MERGE_TAG) with
  | .ok s2 => .ok (s2.deleteTag BEFORE_MERGE_TAG)
  | .raised e s2 => .raised e s2

/-- `SyncManager.isMergeInProgress` (source lines 54-55). -/
def isMergeInProgress (s : VcsState) : Bool :=
  s.hasTag BEFORE_MERGE_TAG

/-- `SyncManager.abortMerge` (source lines 57-59): reset to the checkpoint
tag, then delete it. -/
def abortMerge (s : VcsState) : VcsState :=
  (s.resetTo BEFORE_MERGE_TAG).deleteTag BEFORE_MERGE_TAG

/-- `SyncManager.importAll` (source lines 109-112): run the external
`importAll` body inside the merge-operation scope. -/
def importAllOp (body : VcsState → MergeOutcome) (s : VcsState) : MergeOutcome :=
  mergeOperation body s

theorem hasTag_deleteTag (s : VcsState) (tag : String) :
    (s.deleteTag tag).hasTag tag = false := by
  simp only [VcsState.deleteTag, VcsState.hasTag, List.any_eq_false]
  intro p hp
  rcases List.mem_filter.mp hp with ⟨-, hne⟩
  simpa using of_decide_eq_true hne

theorem hasTag_createTag (s : VcsState) (tag : String) :
    (s.createTag tag).hasTag tag = true := by
  simp [VcsState.createTag, VcsState.hasTag]

/-- C3: checkpoint-tag lifecycle of `_mergeOperation`: `isMergeInProgress` is
exactly the presence of the "before-merge" tag; the tag is present as soon as
it is created (so throughout the body); after a normally-completed merge
operation the tag is gone; and when the body raises, the final state keeps
the tag (for any body that does not itself touch the checkpoint tag). -/
theorem mergeOperation_tag_lifecycle (body : VcsState → MergeOutcome) (s s' : VcsState)
    (e : String)
    (hbody : ∀ t : VcsState, ((body t).state).hasTag BEFORE_MERGE_TAG =
      t.hasTag BEFORE_MERGE_TAG) :
    (∀ t : VcsState, isMergeInProgress t = t.hasTag BEFORE_MERGE_TAG) ∧
    isMergeInProgress (s.createTag BEFORE_MERGE_TAG) = true ∧
    (mergeOperation body s = .ok s' → isMergeInProgress s' = false) ∧
    (mergeOperation body s = .raised e s' → isMergeInProgress s' = true) := by
  refine ⟨fun t => rfl, hasTag_createTag s BEFORE_MERGE_TAG, ?_, ?_⟩
  · intro hok
    unfold mergeOperation at hok
    cases hb : body (s.createTag BEFORE_MERGE_TAG) with
    | ok s2 =>
      rw [hb] at hok
      cases hok
      exact hasTag_deleteTag s2 BEFORE_MERGE_TAG
    | raised e2 s2 =>
      rw [hb] at hok
      exact absurd hok (by simp)
  · intro hraised
    unfold mergeOperation at hraised
    cases hb : body (s.createTag BEFORE_MERGE_TAG) with
    | ok s2 =>
      rw [hb] at hraised
      exact absurd hraised (by simp)
    | raised e2 s2 =>
      rw [hb] at hraised
      cases hraised
      have := hbody (s.createTag BEFORE_MERGE_TAG)
      rw [hb] at this
      simp only [MergeOutcome.state] at this
      rw [isMergeInProgress, this, hasTag_createTag]

/-- Witness for C3 at concrete inputs: a body that raises from the tagged
state leaves the tag present, checked on the empty VCS state. -/
theorem mergeOperation_tag_lifecycle_witness :
    isMergeInProgress ((VcsState.mk [] 0).createTag BEFORE_MERGE_TAG) = true ∧
    (mergeOperation (fun t => .raised "interrupted" t) (VcsState.mk [] 0) =
        .raised "interrupted" ((VcsState.mk [] 0).createTag BEFORE_MERGE_TAG) →
      isMergeInProgress ((VcsState.mk [] 0).createTag BEFORE_MERGE_TAG) = true) :=
  ⟨(mergeOperation_tag_lifecycle (fun t => .raised "interrupted" t) (VcsState.mk [] 0)
      ((VcsState.mk [] 0).createTag BEFORE_MERGE_TAG) "interrupted" (fun _ => rfl)).2.1,
   (mergeOperation_tag_lifecycle (fun t => .raised "interrupted" t) (VcsState.mk [] 0)
      ((VcsState.mk [] 0).createTag BEFORE_MERGE_TAG) "interrupted" (fun _ => rfl)).2.2.2⟩

/-- C5: `abortMerge` on a state where the checkpoint tag exists and labels the
pre-merge snapshot restores that snapshot as the working-tree state and
clears the merge-in-progress flag. -/
theorem abortMerge_restores (s : VcsState) (snap : Nat)
    (htag : s.tags.lookup BEFORE_MERGE_TAG = some snap) :
    (abortMerge s).head = snap ∧ isMergeInProgress (abortMerge s) = false := by
  constructor
  · simp [abortMerge, VcsState.resetTo, VcsState.deleteTag, htag]
  · exact hasTag_deleteTag (s.resetTo BEFORE_MERGE_TAG) BEFORE_MERGE_TAG

/-- Witness for C5 at a concrete input: a mid-merge state whose checkpoint tag
labels snapshot 7 while the head moved to 9; `abortMerge` restores head 7 and
clears the flag. -/
theorem abortMerge_restores_witness :
    (abortMerge (VcsState.mk [(BEFORE_MERGE_TAG, 7)] 9)).head = 7 ∧
    isMergeInProgress (abortMerge (VcsState.mk [(BEFORE_MERGE_TAG, 7)] 9)) = false :=
  abortMerge_restores (VcsState.mk [(BEFORE_MERGE_TAG, 7)] 9) 7 (by decide)

/-- Modelled from the spec: the collection directory names
(`ALIASES_DIRNAME`, `PROJECTS_DIRNAME`, `TASKS_DIRNAME` are imported from
`yokadi.sync`, which is not under src/); the spec's dump layout names the
three collections projects, tasks, aliases. -/
def ALIASES_DIRNAME : String := "aliases"

/-- Modelled from the spec: the projects collection directory name. -/
def PROJECTS_DIRNAME : String := "projects"

/-- Modelled from the spec: the tasks collection directory name. -/
def TASKS_DIRNAME : String := "tasks"

/-- `os.path.join` for the simple relative-component case used here. -/
def pathJoin (a b : String) : String := a ++ "/" ++ b

/-- `SyncManager.initDumpRepository` (source lines 44-52) as a trace
function over whether the dump directory already exists.  `none` models the
assertion failure; otherwise the trace is: create the directory, initialize
VCS tracking, write the version marker, create the three collection
directories, commit "Created". -/
def initDumpRepository (dumpDir : String) (dumpDirExists : Bool) : Option (List Event) :=
  if dumpDirExists then none
  else some ([.makedirs dumpDir, .vcsInit, .createVersionFile dumpDir] ++
    [ALIASES_DIRNAME, PROJECTS_DIRNAME, TASKS_DIRNAME].map
      (fun d => .mkdir (pathJoin dumpDir d)) ++
    [.commitAll "Created"])

/-- C6: `pull` asserts a clean working tree (a contract failure, not a
reported error); when the tree is clean its trace always begins with the
progress report and the fetch — so the fetch runs before the version gate —
and when the gate fails, `pull` returns false with exactly a report-fetch-
error trace: no checkpoint tag is created, no merge is invoked and no import
is performed on that path. -/
theorem pull_gate_failure_path (env : PullEnv) :
    (env.workTreeClean = false → pull env = none) ∧
    (env.workTreeClean = true → ∀ b evs, pull env = some (b, evs) →
      evs.take 2 = [.progress "Pulling remote changes", .fetch]) ∧
    (env.workTreeClean = true →
      (checkDumpVersion env.remoteDumpVersion env.localVersion env.upToDate).1 = false →
      ∃ m, pull env = some (false, [.progress "Pulling remote changes", .fetch, .error m]) ∧
        (∀ evs, pull env = some (false, evs) →
          (∀ tag, Event.createTag tag ∉ evs) ∧ Event.merge ∉ evs ∧
          (∀ tag, Event.importSince tag ∉ evs))) := by
  refine ⟨?_, ?_, ?_⟩
  · intro hdirty
    simp [pull, hdirty]
  · intro hclean b evs hres
    rw [pull] at hres
    rw [hclean] at hres
    simp only [Bool.not_true, Bool.false_eq_true, if_false] at hres
    cases hgate : checkDumpVersion env.remoteDumpVersion env.localVersion env.upToDate with
    | mk ok errs =>
      rw [hgate] at hres
      cases ok with
      | false =>
        simp only [Option.some.injEq, Prod.mk.injEq] at hres
        rw [← hres.2]
        rfl
      | true =>
        simp only [Option.some.injEq, Prod.mk.injEq] at hres
        rw [← hres.2]
        rfl
  · intro hclean hfail
    cases hgate : checkDumpVersion env.remoteDumpVersion env.localVersion env.upToDate with
    | mk ok errs =>
      rw [hgate] at hfail
      simp only at hfail
      subst hfail
      have hmsg : ∃ m, errs = [.error m] := by
        have h := hgate
        rw [checkDumpVersion] at h
        by_cases h1 : env.localVersion < env.remoteDumpVersion
        · rw [if_pos h1] at h
          injection h with h1a h2a
          exact ⟨upgradeNeededMsg env.remoteDumpVersion env.localVersion, h2a.symm⟩
        · rw [if_neg h1] at h
          by_cases h2 : env.remoteDumpVersion < env.localVersion
          · rw [if_pos h2] at h
            cases hup : env.upToDate with
            | true => rw [hup] at h; simp at h
            | false =>
              rw [hup] at h
              rw [if_neg (by simp)] at h
              injection h with h1a h2a
              exact ⟨downgradeConflictMsg env.remoteDumpVersion env.localVersion, h2a.symm⟩
          · rw [if_neg h2] at h
            simp at h
      obtain ⟨m, hm⟩ := hmsg
      subst hm
      have hpull : pull env = some (false, [.progress "Pulling remote changes", .fetch, .error m]) := by
        rw [pull, hclean]
        simp only [Bool.not_true, Bool.false_eq_true, if_false]
        rw [hgate]
        rfl
      refine ⟨m, hpull, ?_⟩
      intro evs hevs
      rw [hpull] at hevs
      simp only [Option.some.injEq, Prod.mk.injEq, true_and] at hevs
      subst hevs
      refine ⟨?_, ?_, ?_⟩
      · intro tag
        simp
      · simp
      · intro tag
        simp

/-- Witness for C6 at concrete inputs: a dirty tree makes `pull` fail its
assertion, and a clean tree with remote version 3 against local version 2
produces exactly the report-fetch-error trace. -/
theorem pull_gate_failure_path_witness :
    pull ⟨false, 2, 2, true, false⟩ = none ∧
    ∃ m, pull ⟨true, 3, 2, true, false⟩ =
        some (false, [.progress "Pulling remote changes", .fetch, .error m]) ∧
      (∀ evs, pull ⟨true, 3, 2, true, false⟩ = some (false, evs) →
        (∀ tag, Event.createTag tag ∉ evs) ∧ Event.merge ∉ evs ∧
        (∀ tag, Event.importSince tag ∉ evs)) :=
  ⟨(pull_gate_failure_path ⟨false, 2, 2, true, false⟩).1 rfl,
   (pull_gate_failure_path ⟨true, 3, 2, true, false⟩).2.2 rfl (by decide)⟩

/-- C8: `initDumpRepository` fails its assertion exactly when the dump
directory already exists; otherwise its trace is, in order: create the
directory, initialize VCS tracking, write the version marker, create the
aliases, projects and tasks collection directories, and commit "Created". -/
theorem initDumpRepository_bootstrap (dumpDir : String) (dumpDirExists : Bool) :
    (dumpDirExists = true → initDumpRepository dumpDir dumpDirExists = none) ∧
    (dumpDirExists = false → initDumpRepository dumpDir dumpDirExists =
      some [.makedirs dumpDir, .vcsInit, .createVersionFile dumpDir,
        .mkdir (pathJoin dumpDir ALIASES_DIRNAME), .mkdir (pathJoin dumpDir PROJECTS_DIRNAME),
        .mkdir (pathJoin dumpDir TASKS_DIRNAME), .commitAll "Created"]) := by
  constructor
  · intro h
    simp [initDumpRepository, h]
  · intro h
    simp [initDumpRepository, h]

/-- Witness for C8 at a concrete input: bootstrapping a fresh "dump"
directory produces exactly the seven-step trace, and an existing directory
trips the assertion. -/
theorem initDumpRepository_bootstrap_witness :
    initDumpRepository "dump" true = none ∧
    initDumpRepository "dump" false =
      some [.makedirs "dump", .vcsInit, .createVersionFile "dump",
        .mkdir (pathJoin "dump" ALIASES_DIRNAME), .mkdir (pathJoin "dump" PROJECTS_DIRNAME),
        .mkdir (pathJoin "dump" TASKS_DIRNAME), .commitAll "Created"] :=
  ⟨(initDumpRepository_bootstrap "dump" true).1 rfl,
   (initDumpRepository_bootstrap "dump" false).2 rfl⟩

/-- C9: `importAll` runs inside the merge-operation scope: it equals the
merge operation applied to the external import body, so the body runs on the
state right after the checkpoint tag is created — where `isMergeInProgress`
is true — the tag is deleted exactly on normal completion, and an exception
raised during the import leaves the tag present (for any import body that
does not itself touch the checkpoint tag). -/
theorem importAllOp_merge_scope (body : VcsState → MergeOutcome) (s s' : VcsState)
    (e : String)
    (hbody : ∀ t : VcsState, ((body t).state).hasTag BEFORE_MERGE_TAG =
      t.hasTag BEFORE_MERGE_TAG) :
    (importAllOp body s =
      match body (s.createTag BEFORE_MERGE_TAG) with
      | .ok s2 => .ok (s2.deleteTag BEFORE_MERGE_TAG)
      | .raised e2 s2 => .raised e2 s2) ∧
    isMergeInProgress (s.createTag BEFORE_MERGE_TAG) = true ∧
    (importAllOp body s = .ok s' → isMergeInProgress s' = false) ∧
    (importAllOp body s = .raised e s' → isMergeInProgress s' = true) := by
  refine ⟨rfl, hasTag_createTag s BEFORE_MERGE_TAG, ?_, ?_⟩
  · intro hok
    rw [importAllOp, mergeOperation] at hok
    cases hb : body (s.createTag BEFORE_MERGE_TAG) with
    | ok s2 =>
      rw [hb] at hok
      cases hok
      exact hasTag_deleteTag s2 BEFORE_MERGE_TAG
    | raised e2 s2 =>
      rw [hb] at hok
      exact absurd hok (by simp)
  · intro hraised
    rw [importAllOp, mergeOperation] at hraised
    cases hb : body (s.createTag BEFORE_MERGE_TAG) with
    | ok s2 =>
      rw [hb] at hraised
      exact absurd hraised (by simp)
    | raised e2 s2 =>
      rw [hb] at hraised
      cases hraised
      have hpres := hbody (s.createTag BEFORE_MERGE_TAG)
      rw [hb] at hpres
      simp only [MergeOutcome.state] at hpres
      rw [isMergeInProgress, hpres, hasTag_createTag]

/-- Witness for C9 at concrete inputs: an import body that completes normally
from the tagged state leaves the flag cleared, applied on the empty VCS
state. -/
theorem importAllOp_merge_scope_witness :
    isMergeInProgress ((VcsState.mk [] 0).createTag BEFORE_MERGE_TAG) = true ∧
    (importAllOp (fun t => .ok t) (VcsState.mk [] 0) =
        .ok (((VcsState.mk [] 0).createTag BEFORE_MERGE_TAG).deleteTag BEFORE_MERGE_TAG) →
      isMergeInProgress (((VcsState.mk [] 0).createTag BEFORE_MERGE_TAG).deleteTag
        BEFORE_MERGE_TAG) = false) :=
  ⟨(importAllOp_merge_scope (fun t => .ok t) (VcsState.mk [] 0)
      (((VcsState.mk [] 0).createTag BEFORE_MERGE_TAG).deleteTag BEFORE_MERGE_TAG) ""
      (fun _ => rfl)).2.1,
   (importAllOp_merge_scope (fun t => .ok t) (VcsState.mk [] 0)
      (((VcsState.mk [] 0).createTag BEFORE_MERGE_TAG).deleteTag BEFORE_MERGE_TAG) ""
      (fun _ => rfl)).2.2.1⟩

/-- A fragment of Python/JSON values sufficient for the dump files the
integrity checks read: strings, lists and string-keyed dictionaries. -/
inductive PyVal where
  | str (s : String)
  | list (xs : List PyVal)
  | dict (kvs : List (String × PyVal))

/-- Python subscripting `v[key]` with a string key, as the integrity checks
use it: a dictionary looks the key up (raising `KeyError` when absent), while
subscripting a list or a string with a string key raises a `TypeError`. -/
def pySubscript (v : PyVal) (key : String) : Except String PyVal :=
  match v with
  | .dict kvs =>
    match kvs.lookup key with
    | some x => .ok x
    | none => .error ("KeyError: " ++ key)
  | .list _ => .error "TypeError: list indices must be integers or slices, not str"
  | .str _ => .error "TypeError: string indices must be integers"

/-- The string value of a field of a dump item, when present. -/
def fieldOf (it : PyVal) (field : String) : Option String :=
  match it with
  | .dict kvs =>
    match kvs.lookup field with
    | some (.str s) => some s
    | _ => none
  | _ => none

/-- Modelled from the spec: `findConflicts` (from `yokadi.sync.pull`, not
under src/) groups the dump items of a collection by the given field and
returns, keyed by field value in first-occurrence order, the groups holding
more than one item. -/
def findConflicts (items : List PyVal) (field : String) : List (String × List PyVal) :=
  let names := (items.filterMap (fun it => fieldOf it field)).eraseDups
  (names.map (fun n => (n, items.filter (fun it => fieldOf it field == some n)))).filter
    (fun p => decide (2 ≤ p.2.length))

/-- The inner loop of `_checkUnicity` (source lines 157-159): for each
conflict in the list, the source computes
`conflictList["uuid"]` — subscripting the conflict LIST itself, not the
current conflict item — so the first iteration raises a `TypeError`. -/
def printConflictPathsLoop (jsonDirPath : String) (conflictListVal : PyVal) :
    List PyVal → List String × Option String
  | [] => ([], none)
  | _ :: rest =>
    match pySubscript conflictListVal "uuid" with
    | .error e => ([], some e)
    | .ok (.str u) =>
      let path := pathJoin jsonDirPath (u ++ ".json")
      let restRes := printConflictPathsLoop jsonDirPath conflictListVal rest
      (path :: restRes.1, restRes.2)
    | .ok _ => ([], some "TypeError: can only concatenate str (not \x22str\x22) to list")

/-- The outer loop of `_checkUnicity` (source lines 155-159): print the
conflict header for each conflicting name, then run the listing loop;
a raised exception stops the pass. -/
def checkUnicityLoop (jsonDirPath : String) :
    List (String × List PyVal) → List String × Option String
  | [] => ([], none)
  | (name, clist) :: rest =>
    let hdr := "## " ++ name ++ " exists " ++ Nat.repr clist.length ++ " times"
    let inner := printConflictPathsLoop jsonDirPath (.list clist) clist
    match inner.2 with
    | some e => (hdr :: inner.1, some e)
    | none =>
      let restRes := checkUnicityLoop jsonDirPath rest
      (hdr :: (inner.1 ++ restRes.1), restRes.2)

/-- `SyncManager._checkUnicity` (source lines 151-159): the printed lines and
the exception the pass raises, if any, given the dump items of the
collection directory. -/
def checkUnicity (dumpDir dirname : String) (items : List PyVal) :
    List String × Option String :=
  let jsonDirPath := pathJoin dumpDir dirname
  let res := checkUnicityLoop jsonDirPath (findConflicts items "name")
  (("# Checking " ++ dirname ++ " unicity") :: res.1, res.2)

/-- A dump with two Project items sharing the name "work". -/
def twoProjectsSameName : List PyVal :=
  [.dict [("name", .str "work"), ("uuid", .str "u1")],
   .dict [("name", .str "work"), ("uuid", .str "u2")]]

/-- C4 (code bug): on a dump with two Project files sharing a name, the
unicity check prints the conflict header but then raises a `TypeError` —
line 158 subscripts the conflict list (`conflictList["uuid"]`) instead of
the current conflict item — so it never lists the conflicting files' paths,
contrary to the claim and to the spec's stated intent (spec section 9 notes
this as a known defect). -/
theorem checkUnicity_duplicate_name_raises :
    checkUnicity "dump" PROJECTS_DIRNAME twoProjectsSameName =
      (["# Checking projects unicity", "## work exists 2 times"],
        some "TypeError: list indices must be integers or slices, not str") := by
  rfl

/-- `os.path.splitext(name)[0]`: the name with its last extension removed;
a leading run of dots never starts an extension. -/
def splitextRoot (name : String) : String :=
  let cs := name.toList
  let lead := cs.takeWhile (fun c => c = '.')
  let rest := cs.drop lead.length
  if rest.contains '.' then
    String.mk (lead ++ ((rest.reverse.dropWhile (fun c => c ≠ '.')).drop 1).reverse)
  else name

/-- A file of a dump collection directory: its file name and the result of
opening and JSON-parsing it (`.error` models an unreadable file or invalid
content). -/
structure DumpFile where
  name : String
  parsed : Except String PyVal

/-- The attempt the body of `_checkTaskProjects`'s try-block makes on one
task file: parse it and subscript `"projectUuid"`; `none` when any step
raises (unreadable file, invalid content, missing key, or a value that the
set-membership test cannot hash). -/
def extractProjectUuid (f : DumpFile) : Option String :=
  match f.parsed with
  | .ok (.dict kvs) =>
    match kvs.lookup "projectUuid" with
    | some (.str s) => some s
    | _ => none
  | _ => none

/-- The loop of `_checkTaskProjects` (source lines 167-179): scan the task
files, printing the heading before the first dangling reference and the path
of every dangling task; any exception is wrapped as "Error in {path}" and
raised, stopping the scan. -/
def checkTaskProjectsLoop (taskDir : String) (projectUuids : List String) :
    Bool → List DumpFile → List String × Option String
  | _, [] => ([], none)
  | first, f :: rest =>
    let taskPath := pathJoin taskDir f.name
    match extractProjectUuid f with
    | none => ([], some ("Error in " ++ taskPath))
    | some u =>
      if projectUuids.contains u then
        checkTaskProjectsLoop taskDir projectUuids first rest
      else
        let hdr := if first then ["These tasks point to a non existing project"] else []
        let restRes := checkTaskProjectsLoop taskDir projectUuids false rest
        (hdr ++ taskPath :: restRes.1, restRes.2)

/-- `SyncManager._checkTaskProjects` (source lines 161-179): the known
Project UUIDs are the extension-stripped names of the files of the projects
directory; every task file is then scanned. -/
def checkTaskProjects (dumpDir : String) (projectFileNames : List String)
    (taskFiles : List DumpFile) : List String × Option String :=
  let taskDir := pathJoin dumpDir TASKS_DIRNAME
  let projectUuids := projectFileNames.map splitextRoot
  let res := checkTaskProjectsLoop taskDir projectUuids true taskFiles
  ("# Checking all tasks have an existing project" :: res.1, res.2)

theorem checkTaskProjectsLoop_all_ok (taskDir : String) (projectUuids : List String)
    (l : List DumpFile) (hok : ∀ f ∈ l, (extractProjectUuid f).isSome) :
    ∀ first, (checkTaskProjectsLoop taskDir projectUuids first l).2 = none ∧
      ∀ f ∈ l, ∀ u, extractProjectUuid f = some u → projectUuids.contains u = false →
        pathJoin taskDir f.name ∈ (checkTaskProjectsLoop taskDir projectUuids first l).1 := by
  induction l with
  | nil => intro first; exact ⟨rfl, by simp⟩
  | cons f rest ih =>
    intro first
    have hf : (extractProjectUuid f).isSome := hok f (List.mem_cons_self f rest)
    obtain ⟨u, hu⟩ := Option.isSome_iff_exists.mp hf
    have hrest : ∀ g ∈ rest, (extractProjectUuid g).isSome :=
      fun g hg => hok g (List.mem_cons_of_mem f hg)
    by_cases hc : projectUuids.contains u
    · have hstep : checkTaskProjectsLoop taskDir projectUuids first (f :: rest) =
          checkTaskProjectsLoop taskDir projectUuids first rest := by
        simp only [checkTaskProjectsLoop, hu]
        rw [if_pos hc]
      refine ⟨hstep ▸ ((ih hrest first).1), ?_⟩
      intro g hg v hv hvnot
      rcases List.mem_cons.mp hg with hgf | hgrest
      · subst hgf
        rw [hu] at hv
        cases hv
        rw [hc] at hvnot
        exact absurd hvnot (by simp)
      · rw [hstep]
        exact (ih hrest first).2 g hgrest v hv hvnot
    · have hc' : projectUuids.contains u = false := eq_false_of_ne_true hc
      have hstep : checkTaskProjectsLoop taskDir projectUuids first (f :: rest) =
          ((if first then ["These tasks point to a non existing project"] else []) ++
            pathJoin taskDir f.name ::
              (checkTaskProjectsLoop taskDir projectUuids false rest).1,
            (checkTaskProjectsLoop taskDir projectUuids false rest).2) := by
        simp only [checkTaskProjectsLoop, hu]
        rw [if_neg hc]
      refine ⟨?_, ?_⟩
      · rw [hstep]
        exact (ih hrest false).1
      · intro g hg v hv hvnot
        rw [hstep]
        rcases List.mem_cons.mp hg with hgf | hgrest
        · subst hgf
          exact List.mem_append_right _ (List.mem_cons_self _ _)
        · exact List.mem_append_right _
            (List.mem_cons_of_mem _ ((ih hrest false).2 g hgrest v hv hvnot))

theorem checkTaskProjectsLoop_raises (taskDir : String) (projectUuids : List String)
    (f : DumpFile) (post : List DumpFile) (hbad : extractProjectUuid f = none) :
    ∀ pre : List DumpFile, (∀ g ∈ pre, (extractProjectUuid g).isSome) → ∀ first,
      (checkTaskProjectsLoop taskDir projectUuids first (pre ++ f :: post)).2 =
        some ("Error in " ++ pathJoin taskDir f.name) := by
  intro pre
  induction pre with
  | nil =>
    intro _ first
    rw [List.nil_append, checkTaskProjectsLoop, hbad]
  | cons g pre ih =>
    intro hok first
    have hg : (extractProjectUuid g).isSome := hok g (List.mem_cons_self g pre)
    obtain ⟨u, hu⟩ := Option.isSome_iff_exists.mp hg
    have hpre : ∀ x ∈ pre, (extractProjectUuid x).isSome :=
      fun x hx => hok x (List.mem_cons_of_mem g hx)
    rw [List.cons_append]
    simp only [checkTaskProjectsLoop, hu]
    by_cases hc : projectUuids.contains u
    · rw [if_pos hc]
      exact ih hpre first
    · rw [if_neg hc]
      exact ih hpre false

/-- C7: the referential check: when every task file is readable with a
`projectUuid` field, the pass raises nothing and prints the path of every
task whose `projectUuid` is not among the known Project UUIDs (no dangling
task is silently dropped); and when a task file is unreadable or invalid,
the pass raises a hard failure wrapped with that file's path (the first such
file, where the scan stops). -/
theorem checkTaskProjects_referential (dumpDir : String) (projectFileNames : List String)
    (taskFiles : List DumpFile) :
    ((∀ f ∈ taskFiles, (extractProjectUuid f).isSome) →
      (checkTaskProjects dumpDir projectFileNames taskFiles).2 = none ∧
      ∀ f ∈ taskFiles, ∀ u, extractProjectUuid f = some u →
        (projectFileNames.map splitextRoot).contains u = false →
        pathJoin (pathJoin dumpDir TASKS_DIRNAME) f.name ∈
          (checkTaskProjects dumpDir projectFileNames taskFiles).1) ∧
    (∀ pre f post, taskFiles = pre ++ f :: post →
      (∀ g ∈ pre, (extractProjectUuid g).isSome) →
      extractProjectUuid f = none →
      (checkTaskProjects dumpDir projectFileNames taskFiles).2 =
        some ("Error in " ++ pathJoin (pathJoin dumpDir TASKS_DIRNAME) f.name)) := by
  constructor
  · intro hok
    have h := checkTaskProjectsLoop_all_ok (pathJoin dumpDir TASKS_DIRNAME)
      (projectFileNames.map splitextRoot) taskFiles hok true
    refine ⟨h.1, ?_⟩
    intro f hf u hu hnot
    exact List.mem_cons_of_mem _ (h.2 f hf u hu hnot)
  · intro pre f post heq hpre hbad
    subst heq
    exact checkTaskProjectsLoop_raises (pathJoin dumpDir TASKS_DIRNAME)
      (projectFileNames.map splitextRoot) f post hbad pre hpre true

/-- Two concrete task files: one referencing the existing project `p1`, one
referencing the non-existent project `ghost`. -/
def demoTaskFiles : List DumpFile :=
  [⟨"t1.json", .ok (.dict [("projectUuid", .str "p1")])⟩,
   ⟨"t2.json", .ok (.dict [("projectUuid", .str "ghost")])⟩]

/-- Witness for C7 at concrete inputs: with project file `p1.json`, the task
referencing `ghost` is reported and nothing is raised; a dump whose only
task file is unreadable raises "Error in" that file's path. -/
theorem checkTaskProjects_referential_witness :
    ((checkTaskProjects "dump" ["p1.json"] demoTaskFiles).2 = none ∧
      pathJoin (pathJoin "dump" TASKS_DIRNAME) "t2.json" ∈
        (checkTaskProjects "dump" ["p1.json"] demoTaskFiles).1) ∧
    (checkTaskProjects "dump" ["p1.json"] [⟨"bad.json", .error "json decode error"⟩]).2 =
      some ("Error in " ++ pathJoin (pathJoin "dump" TASKS_DIRNAME) "bad.json") := by
  constructor
  · have h := (checkTaskProjects_referential "dump" ["p1.json"] demoTaskFiles).1
      (by intro f hf; fin_cases hf <;> decide)
    refine ⟨h.1, ?_⟩
    exact h.2 ⟨"t2.json", .ok (.dict [("projectUuid", .str "ghost")])⟩
      (List.mem_cons_of_mem _ (List.mem_cons_self _ _)) "ghost" rfl (by decide)
  · exact (checkTaskProjects_referential "dump" ["p1.json"]
      [⟨"bad.json", .error "json decode error"⟩]).2 []
      ⟨"bad.json", .error "json decode error"⟩ [] rfl (by simp) rfl

/-- Python `str.endswith`, over the character lists so that it evaluates on
concrete inputs. -/
def strEndsWith (s t : String) : Bool :=
  List.isSuffixOf t.toList s.toList

/-- Opening and JSON-parsing one dump file and reading its `"uuid"` field,
then adding it to the UUID set (`json.load(fp)`, `dct["uuid"]`,
`dumpUuids.add(...)`, source lines 134-136): the parse error or the
subscript error propagates, and `set.add` raises a `TypeError` when the
value is unhashable (a list or a dictionary), so only a string UUID
completes normally. -/
def uuidOfParsed (p : Except String PyVal) : Except String String :=
  match p with
  | .error e => .error e
  | .ok dct =>
    match pySubscript dct "uuid" with
    | .error e => .error e
    | .ok (.str s) => .ok s
    | .ok (.list _) => .error "TypeError: unhashable type: list"
    | .ok (.dict _) => .error "TypeError: unhashable type: dict"

/-- The dump-side UUID collection of `_checkItems` (source lines 129-136):
scan the collection directory's files, skipping any whose name does not end
in ".json", and add each kept file's `"uuid"` field to the set; a file that
fails to parse, lacks the field, or holds an unhashable value raises out of
the check. -/
def dumpUuidsOf : List DumpFile → Except String (List String)
  | [] => .ok []
  | f :: rest =>
    if strEndsWith f.name ".json" then
      match uuidOfParsed f.parsed with
      | .error e => .error e
      | .ok u => (dumpUuidsOf rest).map (fun us => u :: us)
    else dumpUuidsOf rest

/-- Same scan expressed over the parse results alone, used to show the file
names of the kept files do not influence the collected UUIDs. -/
def uuidsFromParsed : List (Except String PyVal) → Except String (List String)
  | [] => .ok []
  | p :: rest =>
    match uuidOfParsed p with
    | .error e => .error e
    | .ok u => (uuidsFromParsed rest).map (fun us => u :: us)

theorem uuidsFromParsed_cons (p : Except String PyVal) (l : List (Except String PyVal)) :
    uuidsFromParsed (p :: l) =
      match uuidOfParsed p with
      | .error e => .error e
      | .ok u => (uuidsFromParsed l).map (fun us => u :: us) := rfl

/-- The presence report of `_checkItems` (source lines 141-149):
`missingDb` is printed under "## Missing DB items" (UUIDs in the dump only)
and `missingDump` under "## Missing dump items" (UUIDs in the database
only).  The source's `dbUuids != dumpUuids` guard is equivalent: both
differences are empty exactly when the two sets are equal. -/
structure ItemsReport where
  missingDb : List String
  missingDump : List String

/-- `SyncManager._checkItems` (source lines 126-149) for one collection:
collect the dump UUIDs (propagating any raised error), then report each
side's UUIDs missing from the other. -/
def checkItems (files : List DumpFile) (dbUuids : List String) : Except String ItemsReport :=
  (dumpUuidsOf files).map (fun dumpUuids =>
    ⟨dumpUuids.filter (fun u => !(dbUuids.contains u)),
     dbUuids.filter (fun d => !(dumpUuids.contains d))⟩)

theorem dumpUuidsOf_eq_uuidsFromParsed (l : List DumpFile) :
    dumpUuidsOf l =
      uuidsFromParsed ((l.filter (fun f => strEndsWith f.name ".json")).map
        (fun f => f.parsed)) := by
  induction l with
  | nil => rfl
  | cons f rest ih =>
    by_cases hjson : strEndsWith f.name ".json"
    · rw [dumpUuidsOf, if_pos hjson, List.filter_cons, if_pos hjson, List.map_cons,
        uuidsFromParsed_cons]
      cases uuidOfParsed f.parsed with
      | error e => rfl
      | ok u => rw [ih]
    · rw [dumpUuidsOf, if_neg hjson, List.filter_cons, if_neg hjson, ih]

/-- C10: the per-collection presence check: only files named `*.json` take
part — filtering the directory listing to them changes nothing — and the
collected UUIDs depend only on the kept files' contents, not their names;
when the collection completes (every kept file parses to a dictionary whose
`"uuid"` value is a hashable string), the report lists exactly the dump-only
UUIDs as missing DB items and exactly the database-only UUIDs as missing
dump items, and lists nothing when the two sets are equal. -/
theorem checkItems_presence (files : List DumpFile) (dbUuids : List String) :
    (checkItems files dbUuids =
      checkItems (files.filter (fun f => strEndsWith f.name ".json")) dbUuids) ∧
    (∀ files2 : List DumpFile,
      (files.filter (fun f => strEndsWith f.name ".json")).map (fun f => f.parsed) =
        (files2.filter (fun f => strEndsWith f.name ".json")).map (fun f => f.parsed) →
      checkItems files dbUuids = checkItems files2 dbUuids) ∧
    (∀ us, dumpUuidsOf files = .ok us →
      checkItems files dbUuids = .ok
        ⟨us.filter (fun u => !(dbUuids.contains u)),
          dbUuids.filter (fun d => !(us.contains d))⟩ ∧
      (∀ rep, checkItems files dbUuids = .ok rep →
        (∀ u, u ∈ rep.missingDb ↔ u ∈ us ∧ u ∉ dbUuids) ∧
        (∀ d, d ∈ rep.missingDump ↔ d ∈ dbUuids ∧ d ∉ us) ∧
        ((∀ u ∈ us, u ∈ dbUuids) → (∀ d ∈ dbUuids, d ∈ us) →
          rep.missingDb = [] ∧ rep.missingDump = []))) := by
  refine ⟨?_, ?_, ?_⟩
  · rw [checkItems, checkItems, dumpUuidsOf_eq_uuidsFromParsed,
      dumpUuidsOf_eq_uuidsFromParsed (files.filter (fun f => strEndsWith f.name ".json"))]
    rw [List.filter_filter]
    simp only [Bool.and_self]
  · intro files2 hsame
    rw [checkItems, checkItems, dumpUuidsOf_eq_uuidsFromParsed,
      dumpUuidsOf_eq_uuidsFromParsed files2, hsame]
  · intro us hus
    have hok : checkItems files dbUuids = .ok
        ⟨us.filter (fun u => !(dbUuids.contains u)),
          dbUuids.filter (fun d => !(us.contains d))⟩ := by
      rw [checkItems, hus]
      rfl
    refine ⟨hok, ?_⟩
    intro rep hrep
    rw [hok] at hrep
    simp only [Except.ok.injEq] at hrep
    subst hrep
    refine ⟨?_, ?_, ?_⟩
    · intro u
      simp [List.mem_filter]
    · intro d
      simp [List.mem_filter]
    · intro hdump hdb
      constructor
      · rw [List.filter_eq_nil_iff]
        intro u hu
        simp [hdump u hu]
      · rw [List.filter_eq_nil_iff]
        intro d hd
        simp [hdb d hd]

/-- A concrete collection directory: two JSON items and a non-JSON file that
would not even parse. -/
def demoCollectionFiles : List DumpFile :=
  [⟨"a.json", .ok (.dict [("uuid", .str "u1")])⟩,
   ⟨"README", .error "not json"⟩,
   ⟨"b.json", .ok (.dict [("uuid", .str "u2")])⟩]

/-- Witness for C10 at concrete inputs: the non-JSON file is ignored, the
UUIDs come from the files' contents, and against the database {u1, u3} the
report lists u2 as a missing DB item and u3 as a missing dump item. -/
theorem checkItems_presence_witness :
    checkItems demoCollectionFiles ["u1", "u3"] =
      checkItems (demoCollectionFiles.filter (fun f => strEndsWith f.name ".json"))
        ["u1", "u3"] ∧
    checkItems demoCollectionFiles ["u1", "u3"] =
      .ok ⟨["u2"], ["u3"]⟩ := by
  constructor
  · exact (checkItems_presence demoCollectionFiles ["u1", "u3"]).1
  · exact ((checkItems_presence demoCollectionFiles ["u1", "u3"]).2.2
      ["u1", "u2"] (by rfl)).1
